import Mathlib

/-!
Verification development for the Daily-Onchain repository (src/src/App.jsx).

Shallow embedding conventions:
* JS strings are represented as `List Char` (code points; the UTF-16
  surrogate-pair subtleties of JS strings play no role in the verified
  claims).
* JS numbers produced by `JSON.parse` are kept structurally as a decimal
  mantissa/exponent pair (`JVal.num mant exp10`, denoting mant * 10^exp10);
  no IEEE-754 rounding is modelled.  Truthiness of such a number is
  `mant ≠ 0`, which matches JS except for doubles that underflow to 0.
* Calendar date strings ("2026-02-25", produced by `toISOString().slice(0,10)`)
  are represented by their UTC day numbers (`Int.fdiv ms 86400000`); the ISO
  rendering is injective on day numbers, so every equality test the source
  performs on date strings is preserved.
* Clock readings (`Date.now()`) are an explicit `Int` parameter (milliseconds).
-/

/-- A JavaScript value as far as this program observes it:
`undefined` is JS `undefined` (result of a missing property access),
everything else is what `JSON.parse` can produce. -/
inductive JVal where
  | undefined
  | null
  | bool (b : Bool)
  | num (mant : Int) (exp10 : Int)
  | str (s : List Char)
  | arr (elems : List JVal)
  | obj (fields : List (List Char × JVal))

/-- The four whitespace characters accepted by `JSON.parse` (also the common
core of JS `\s` and `String.prototype.trim`; the exotic Unicode space
characters do not occur in the texts the claims quantify over). -/
def isJsWs (c : Char) : Bool :=
  c = ' ' || c = '\t' || c = '\n' || c = '\r' || c = Char.ofNat 12 || c = Char.ofNat 11

def skipWs (l : List Char) : List Char := l.dropWhile isJsWs

/-- JS `trim()`: drop whitespace at both ends. -/
def jsTrim (l : List Char) : List Char :=
  ((l.dropWhile isJsWs).reverse.dropWhile isJsWs).reverse

def lbrace : Char := Char.ofNat 123
def rbrace : Char := Char.ofNat 125
def btick : Char := Char.ofNat 96

def isDigitChar (c : Char) : Bool := '0' ≤ c && c ≤ '9'

def hexVal (c : Char) : Option Nat :=
  if '0' ≤ c && c ≤ '9' then some (c.toNat - 48)
  else if 'a' ≤ c && c ≤ 'f' then some (c.toNat - 87)
  else if 'A' ≤ c && c ≤ 'F' then some (c.toNat - 55)
  else none

def simpleEscape (c : Char) : Option Char :=
  if c = '"' then some '"'
  else if c = '\\' then some '\\'
  else if c = '/' then some '/'
  else if c = 'b' then some (Char.ofNat 8)
  else if c = 'f' then some (Char.ofNat 12)
  else if c = 'n' then some '\n'
  else if c = 'r' then some '\r'
  else if c = 't' then some '\t'
  else none

/-- Body of a JSON string literal, after the opening quote: returns the
decoded content and the input after the closing quote.  Raw control
characters (< 0x20) are rejected, exactly as `JSON.parse` does — this is
what makes raw line breaks inside quoted values a tier-1 parse failure. -/
def parseStringBody : List Char → Option (List Char × List Char)
  | [] => none
  | '"' :: rest => some ([], rest)
  | '\\' :: 'u' :: h1 :: h2 :: h3 :: h4 :: rest =>
    match hexVal h1, hexVal h2, hexVal h3, hexVal h4 with
    | some a, some b, some c, some d =>
      (parseStringBody rest).map
        (fun p => (Char.ofNat (((a * 16 + b) * 16 + c) * 16 + d) :: p.1, p.2))
    | _, _, _, _ => none
  | '\\' :: e :: rest =>
    match simpleEscape e with
    | some ch => (parseStringBody rest).map (fun p => (ch :: p.1, p.2))
    | none => none
  | c :: rest =>
    if c.toNat < 32 then none
    else (parseStringBody rest).map (fun p => (c :: p.1, p.2))

def natOfDigits (ds : List Char) : Nat :=
  ds.foldl (fun a c => a * 10 + (c.toNat - 48)) 0

/-- JSON number grammar: `-? int frac? exp?` with the no-leading-zero rule. -/
def parseNumber (l : List Char) : Option (JVal × List Char) :=
  let (neg, l1) := match l with
    | '-' :: r => (true, r)
    | _ => (false, l)
  match l1 with
  | [] => none
  | c :: r =>
    if c = '0' then parseNumTail neg [c] r
    else if isDigitChar c then
      let (ds, r') := r.span isDigitChar
      parseNumTail neg (c :: ds) r'
    else none
where
  parseNumTail (neg : Bool) (intDs : List Char) (rest : List Char) :
      Option (JVal × List Char) :=
    match rest with
    | '.' :: r =>
      match r.span isDigitChar with
      | ([], _) => none                 -- a dot with no digits
      | (ds, r') => parseNumExp neg intDs ds r'
    | _ => parseNumExp neg intDs [] rest
  parseNumExp (neg : Bool) (intDs fracDs : List Char) (rest : List Char) :
      Option (JVal × List Char) :=
    let withExp (expVal : Int) (rest2 : List Char) : Option (JVal × List Char) :=
      let mantNat : Nat := natOfDigits (intDs ++ fracDs)
      let mant : Int := if neg then -(mantNat : Int) else (mantNat : Int)
      some (.num mant (expVal - fracDs.length), rest2)
    match rest with
    | 'e' :: r => parseExpPart withExp r
    | 'E' :: r => parseExpPart withExp r
    | _ => withExp 0 rest
  parseExpPart (k : Int → List Char → Option (JVal × List Char))
      (r : List Char) : Option (JVal × List Char) :=
    let (esign, r1) : Bool × List Char := match r with
      | '+' :: t => (false, t)
      | '-' :: t => (true, t)
      | _ => (false, r)
    match r1.span isDigitChar with
    | ([], _) => none
    | (ds, r') =>
      let v : Int := (natOfDigits ds : Int)
      k (if esign then -v else v) r'

/-- Insert a key into an object under construction with JS duplicate-key
semantics: the value of a repeated key is overwritten in place. -/
def objInsert (fs : List (List Char × JVal)) (k : List Char) (v : JVal) :
    List (List Char × JVal) :=
  if fs.any (fun p => p.1 = k) then
    fs.map (fun p => if p.1 = k then (k, v) else p)
  else fs ++ [(k, v)]

mutual

/-- One JSON value (fuelled recursive-descent, mirroring `JSON.parse`). -/
def parseVal : Nat → List Char → Option (JVal × List Char)
  | 0, _ => none
  | fuel + 1, l =>
    match l with
    | [] => none
    | c :: rest =>
      if c = '"' then (parseStringBody rest).map (fun p => (.str p.1, p.2))
      else if c = lbrace then parseObjRest fuel (skipWs rest)
      else if c = '[' then parseArrRest fuel (skipWs rest)
      else if c = 't' then
        match rest with
        | 'r' :: 'u' :: 'e' :: r => some (.bool true, r)
        | _ => none
      else if c = 'f' then
        match rest with
        | 'a' :: 'l' :: 's' :: 'e' :: r => some (.bool false, r)
        | _ => none
      else if c = 'n' then
        match rest with
        | 'u' :: 'l' :: 'l' :: r => some (.null, r)
        | _ => none
      else parseNumber l

/-- Array contents, after `[` and whitespace. -/
def parseArrRest : Nat → List Char → Option (JVal × List Char)
  | 0, _ => none
  | fuel + 1, l =>
    match l with
    | ']' :: rest => some (.arr [], rest)
    | _ =>
      match parseVal fuel l with
      | some (v, r) => parseArrMore fuel [v] (skipWs r)
      | none => none

def parseArrMore : Nat → List JVal → List Char → Option (JVal × List Char)
  | 0, _, _ => none
  | fuel + 1, acc, l =>
    match l with
    | ']' :: rest => some (.arr acc, rest)
    | ',' :: r =>
      match parseVal fuel (skipWs r) with
      | some (v, r') => parseArrMore fuel (acc ++ [v]) (skipWs r')
      | none => none
    | _ => none

/-- Object contents, after the opening brace and whitespace. -/
def parseObjRest : Nat → List Char → Option (JVal × List Char)
  | 0, _ => none
  | fuel + 1, l =>
    match l with
    | [] => none
    | c :: rest =>
      if c = rbrace then some (.obj [], rest)
      else if c = '"' then
        match parseStringBody rest with
        | some (k, r) =>
          match skipWs r with
          | ':' :: r' =>
            match parseVal fuel (skipWs r') with
            | some (v, r'') => parseObjMore fuel (objInsert [] k v) (skipWs r'')
            | none => none
          | _ => none
        | none => none
      else none

def parseObjMore : Nat → List (List Char × JVal) → List Char →
    Option (JVal × List Char)
  | 0, _, _ => none
  | fuel + 1, acc, l =>
    match l with
    | ',' :: r =>
      match skipWs r with
      | '"' :: r1 =>
        match parseStringBody r1 with
        | some (k, r2) =>
          match skipWs r2 with
          | ':' :: r3 =>
            match parseVal fuel (skipWs r3) with
            | some (v, r4) => parseObjMore fuel (objInsert acc k v) (skipWs r4)
            | none => none
          | _ => none
        | none => none
      | _ => none
    | c :: rest =>
      if c = rbrace then some (.obj acc, rest)
      else none
    | [] => none

end

/-- `JSON.parse`: whitespace around a single value, nothing else. -/
def jsonParse (l : List Char) : Option JVal :=
  match parseVal (2 * l.length + 2) (skipWs l) with
  | some (v, rest) => if skipWs rest = [] then some v else none
  | none => none

/-!
### `parseGeminiJSON` (App.jsx lines 33–99): the three-tier recovery cascade
-/

/-- Case-insensitive literal prefix match (`/i` flag); returns the rest. -/
def matchCI : List Char → List Char → Option (List Char)
  | [], l => some l
  | _ :: _, [] => none
  | p :: ps, c :: cs => if p.toLower = c.toLower then matchCI ps cs else none

/-- Case-sensitive literal prefix match; returns the rest. -/
def matchLit : List Char → List Char → Option (List Char)
  | [], l => some l
  | _ :: _, [] => none
  | p :: ps, c :: cs => if p = c then matchLit ps cs else none

def fenceJson : List Char := [btick, btick, btick, 'j', 's', 'o', 'n']

def fencePlain : List Char := [btick, btick, btick]

/-- Global replace of a fence pattern followed by `\s*` with the empty string
(`raw.replace(pat, "")` with a `pat\s*` regex): scan left to right, resume
after each match. -/
def replaceFence (ci : Bool) (pat : List Char) : Nat → List Char → List Char
  | 0, l => l
  | _ + 1, [] => []
  | fuel + 1, c :: rest =>
    match (if ci then matchCI pat (c :: rest) else matchLit pat (c :: rest)) with
    | some r => replaceFence ci pat fuel (r.dropWhile isJsWs)
    | none => c :: replaceFence ci pat fuel rest

/-- Line 35: strip ```` ```json ```` markers (case-insensitive), then bare
```` ``` ```` markers, each with trailing whitespace. -/
def stripFences (l : List Char) : List Char :=
  let a := replaceFence true fenceJson l.length l
  replaceFence false fencePlain a.length a

/-- Keep the list up to (and including) its last closing brace. -/
def endAtLastClose (l : List Char) : List Char :=
  (l.reverse.dropWhile (fun c => c ≠ rbrace)).reverse

/-- Line 38, `cleaned.match(/\{[\s\S]*\}/)`: the leftmost match starts at the
first `\x7b` that has a `\x7d` after it and, greedily, ends at the last
`\x7d` of the string. -/
def braceSpan : List Char → Option (List Char)
  | [] => none
  | c :: rest =>
    if c = lbrace ∧ rbrace ∈ rest then some (endAtLastClose (c :: rest))
    else braceSpan rest

/-- The `cleaned` string at the moment of the tier-1 parse (lines 35–41). -/
def cleaned1 (raw : List Char) : List Char :=
  let t := jsTrim (stripFences raw)
  match braceSpan t with
  | some m => m
  | none => t

/-- Tier 1 (line 45): parse `cleaned` directly. -/
def tier1 (raw : List Char) : Option JVal := jsonParse (cleaned1 raw)

def idxOfChar (c : Char) (l : List Char) : Option Nat := l.findIdx? (fun x => x = c)

def lastIdxOfChar (c : Char) (l : List Char) : Option Nat :=
  (l.reverse.findIdx? (fun x => x = c)).map (fun i => l.length - 1 - i)

/-- JS `String.prototype.substring`: clamps and swaps its bounds. -/
def jsSubstring (l : List Char) (a b : Nat) : List Char :=
  (l.take (max a b)).drop (min a b)

/-- Lines 52–56: re-trim `cleaned` to `indexOf('\x7b') .. lastIndexOf('\x7d')`. -/
def substrTrim (l : List Char) : List Char :=
  match idxOfChar lbrace l, lastIdxOfChar rbrace l with
  | some i, some j => jsSubstring l i (j + 1)
  | _, _ => l

/-- Split at the first double quote (the lazy body of `/"([^"]*?)"/`). -/
def splitAtQuote : List Char → Option (List Char × List Char)
  | [] => none
  | c :: rest =>
    if c = '"' then some ([], rest)
    else (splitAtQuote rest).map (fun p => (c :: p.1, p.2))

/-- Replacement body of lines 60–64: newlines to spaces, drop `\r`. -/
def collapseNl (l : List Char) : List Char :=
  l.foldr (fun ch acc => if ch = '\r' then acc else (if ch = '\n' then ' ' else ch) :: acc) []

/-- Lines 60–64, `cleaned.replace(/"([^"]*?)"/g, ...)`: pair up quotes left to
right and rewrite each quoted span's content. -/
def fixQuotedAux : Nat → List Char → List Char
  | 0, l => l
  | _ + 1, [] => []
  | fuel + 1, c :: rest =>
    if c = '"' then
      match splitAtQuote rest with
      | some (content, rest') =>
        '"' :: (collapseNl content ++ ('"' :: fixQuotedAux fuel rest'))
      | none => c :: rest
    else c :: fixQuotedAux fuel rest

/-- The `cleaned` string after tier 2's two mutations (lines 52–64); tier 2
parses this, and tier 3 runs its regexes over it. -/
def cleaned2 (raw : List Char) : List Char :=
  let t := substrTrim (cleaned1 raw)
  fixQuotedAux t.length t

/-- Tier 2 (line 66). -/
def tier2 (raw : List Char) : Option JVal := jsonParse (cleaned2 raw)

def titleKey : List Char := "title".data

def problemKey : List Char := "problem".data

def hintsKey : List Char := "hints".data

def keyMetricsKey : List Char := "keyMetrics".data

def toolsKey : List Char := "tools".data

def teachingKey : List Char := "teachingPoint".data

def expectChar (c : Char) : List Char → Option (List Char)
  | [] => none
  | x :: rest => if x = c then some rest else none

def quotedKey (name : List Char) : List Char := '"' :: (name ++ ['"'])

/-- Try `/"name"\s*:\s*"([^"]+)"/` at this exact position; returns capture 1. -/
def tryFieldAt (name : List Char) (l : List Char) : Option (List Char) :=
  match matchLit (quotedKey name) l with
  | none => none
  | some r =>
    match expectChar ':' (r.dropWhile isJsWs) with
    | none => none
    | some r1 =>
      match expectChar '"' (r1.dropWhile isJsWs) with
      | none => none
      | some r2 =>
        match r2.span (fun c => c ≠ '"') with
        | (content, r3) =>
          if content = [] then none
          else
            match r3 with
            | '"' :: _ => some content
            | _ => none

/-- Leftmost match of the scalar-field regex over the whole string. -/
def scanField (name : List Char) : List Char → Option (List Char)
  | [] => none
  | c :: rest =>
    match tryFieldAt name (c :: rest) with
    | some content => some content
    | none => scanField name rest

/-- JS line terminators, which `.` does not match (no `/s` flag). -/
def isLineTerm (c : Char) : Bool :=
  c = '\n' || c = '\r' || c = Char.ofNat 8232 || c = Char.ofNat 8233

/-- Try `/"name"\s*:\s*\[(.*?)\]/` at this position: the lazy capture is
everything up to the first `]`, and fails if a line terminator comes first. -/
def tryArrAt (name : List Char) (l : List Char) : Option (List Char) :=
  match matchLit (quotedKey name) l with
  | none => none
  | some r =>
    match expectChar ':' (r.dropWhile isJsWs) with
    | none => none
    | some r1 =>
      match expectChar '[' (r1.dropWhile isJsWs) with
      | none => none
      | some r2 =>
        match r2.span (fun c => c ≠ ']' && !isLineTerm c) with
        | (content, r3) =>
          match r3 with
          | ']' :: _ => some content
          | _ => none

/-- Leftmost match of the array-field regex over the whole string. -/
def scanArr (name : List Char) : List Char → Option (List Char)
  | [] => none
  | c :: rest =>
    match tryArrAt name (c :: rest) with
    | some content => some content
    | none => scanArr name rest

/-- Tier 3 (lines 72–93): regex-extract the six fields from the (tier-2
mutated) `cleaned` string; the three array captures are themselves parsed as
bracketed JSON lists, which can still fail (`thirdError`). -/
def tier3 (raw : List Char) : Option JVal :=
  let c := cleaned2 raw
  match scanField titleKey c, scanField problemKey c, scanArr hintsKey c,
        scanArr keyMetricsKey c, scanArr toolsKey c, scanField teachingKey c with
  | some t, some p, some h, some m, some tl, some tp =>
    match jsonParse ('[' :: (h ++ [']'])), jsonParse ('[' :: (m ++ [']'])),
          jsonParse ('[' :: (tl ++ [']'])) with
    | some hv, some mv, some tv =>
      some (.obj [(titleKey, .str t), (problemKey, .str p), (hintsKey, hv),
                  (keyMetricsKey, mv), (toolsKey, tv), (teachingKey, .str tp)])
    | _, _, _ => none
  | _, _, _, _, _, _ => none

/-- `parseGeminiJSON` (lines 33–99).  The `.error` payload is the text whose
tier-1 `JSON.parse` failure message the thrown JS error wraps
("Failed to parse JSON: <firstError.message>. Check console for details."):
the engine's message is a function of that text, which we carry instead of
modelling V8 message strings. -/
def parseGeminiJSON (raw : List Char) : Except (List Char) JVal :=
  match tier1 raw with
  | some v => .ok v
  | none =>
    match tier2 raw with
    | some v => .ok v
    | none =>
      match tier3 raw with
      | some v => .ok v
      | none => .error (cleaned1 raw)

/-!
### Day assignment (App.jsx lines 104–132) and JS value plumbing
-/

/-- JS property read `v.k`: `undefined` on a missing key or a non-object. -/
def jsGet (v : JVal) (k : List Char) : JVal :=
  match v with
  | .obj fs =>
    match fs.find? (fun p => p.1 = k) with
    | some p => p.2
    | none => .undefined
  | _ => .undefined

/-- JS truthiness of the values this program tests (numbers: see the header
note on underflow). -/
def jsTruthy : JVal → Bool
  | .undefined => false
  | .null => false
  | .bool b => b
  | .num m _ => m ≠ 0
  | .str s => s ≠ []
  | .arr _ => true
  | .obj _ => true

/-- Line 382: `!parsed.title || !parsed.problem || !parsed.hints ||
!parsed.keyMetrics || !parsed.tools || !parsed.teachingPoint` — the
challenge-format check is pure truthiness, not a shape check. -/
def missingFields (v : JVal) : Bool :=
  !jsTruthy (jsGet v titleKey) || !jsTruthy (jsGet v problemKey) ||
  !jsTruthy (jsGet v hintsKey) || !jsTruthy (jsGet v keyMetricsKey) ||
  !jsTruthy (jsGet v toolsKey) || !jsTruthy (jsGet v teachingKey)

structure Category where
  id : String
  label : String
  emoji : String
  color : String
deriving DecidableEq, Repr

/-- Lines 113–121. -/
def CATEGORIES : List Category :=
  [ ⟨"btc", "BTC Fundamentals", "₿", "#f7931a"⟩
  , ⟨"eth", "ETH Fundamentals", "Ξ", "#627eea"⟩
  , ⟨"whale", "Whale Tracking", "🐋", "#0ea5e9"⟩
  , ⟨"defi", "DeFi Analytics", "🏦", "#00c9a7"⟩
  , ⟨"nft", "NFT Markets", "🖼", "#a855f7"⟩
  , ⟨"l2", "L2 & Mempool", "⚡", "#f59e0b"⟩
  , ⟨"macro", "Cross-Chain Macro", "🌐", "#ef4444"⟩ ]

/-- Line 123. -/
def DIFFICULTIES : List String := ["Beginner", "Intermediate", "Advanced"]

def msPerDay : Int := 86400000

/-- `new Date("2025-01-01")`: 2025-01-01T00:00:00Z in Unix milliseconds. -/
def epochMs : Int := 1735689600000

/-- `toISOString().slice(0,10)` represented as the UTC day number. -/
def dayOf (t : Int) : Int := Int.fdiv t msPerDay

/-- Lines 108–111: `Math.floor((Date.now() - start) / 86400000) + 1`
(float division of exact integers below 2^53, floored: `Int.fdiv`). -/
def getDayNumber (now : Int) : Int := Int.fdiv (now - epochMs) msPerDay + 1

/-- JS array indexing `l[i]`: `undefined` when the index is out of range
(a negative JS remainder indexes a missing property). JS renders `-0` as
the property key "0", which `Int.tmod`'s `0` result also models. -/
def jsIndex (l : List α) (i : Int) : Option α :=
  if 0 ≤ i then l[i.toNat]? else none

structure DayMeta where
  cat : Option Category
  diff : Option String
  day : Int
deriving DecidableEq, Repr

/-- Lines 127–132, `getTodayMeta`: JS `%` is the truncated remainder
(`Int.tmod`), `Math.floor` of the float quotient is `Int.fdiv`. -/
def getTodayMeta (now : Int) (offsetDays : Int) : DayMeta :=
  let day := getDayNumber now + offsetDays
  { cat := jsIndex CATEGORIES (Int.tmod day (CATEGORIES.length : Int))
  , diff := jsIndex DIFFICULTIES
      (Int.tmod (Int.fdiv day (CATEGORIES.length : Int)) (DIFFICULTIES.length : Int))
  , day := day }

/-- Line 29: `data.candidates?.[0]?.content?.parts?.[0]?.text || ""` —
the argument is the first candidate's text when present; with no
candidates the result is the empty string, not an error. -/
def extractCandidateText (firstPartText : Option (List Char)) : List Char :=
  match firstPartText with
  | some t => t
  | none => []

/-!
### Generation orchestrator (App.jsx lines 352–402)
-/

/-- A cache key (line 354): the ISO date string for offset 0, else
`"offset_" + (getDayNumber() + offset)`.  A date string never equals an
`offset_`-prefixed string, so the constructors' disjointness is faithful. -/
inductive CacheKey where
  | dateStr (d : Int)
  | offsetStr (i : Int)
deriving DecidableEq, Repr

def computeDateKey (now offsetDays : Int) : CacheKey :=
  if offsetDays = 0 then .dateStr (dayOf now)
  else .offsetStr (getDayNumber now + offsetDays)

/-- The JS object passed to `setChallenge`, as a spread `\x7b...base,
overrides\x7d`: an override field of `none` means the spread did not
introduce that key (cache hits override only `cat`, `diff`, `day`;
fresh generations also set `category` and `dateKey`). -/
structure ShownChallenge where
  base : JVal
  category : Option String
  cat : Option Category
  diff : Option String
  day : Int
  dateKey : Option CacheKey

/-- What one generation attempt can throw (lines 370–392). -/
inductive AttemptErr where
  | typeErrorLabel
  | service (msg : List Char)
  | malformed (tier1Text : List Char)
  | invalidFormat

/-- One iteration of the retry loop body (lines 371–388), with the external
call abstracted as an oracle from attempt number to outcome:
`buildChallengePrompt` reads `cat.label`, which throws a TypeError when the
day's category lookup produced `undefined`; then `callGemini`,
`parseGeminiJSON`, and the field-presence check, each throwing into the
shared `catch`. -/
def attemptResult (now offsetDays : Int)
    (gemini : Nat → Except (List Char) (List Char)) (k : Nat) :
    Except AttemptErr JVal :=
  match (getTodayMeta now offsetDays).cat with
  | none => .error .typeErrorLabel
  | some _ =>
    match gemini k with
    | .error msg => .error (.service msg)
    | .ok raw =>
      match parseGeminiJSON raw with
      | .error t => .error (.malformed t)
      | .ok parsed =>
        if missingFields parsed then .error .invalidFormat else .ok parsed

/-- `for (let attempt = 1; attempt <= 3; attempt++) ... ` (line 369):
first success wins; otherwise the error of the last attempt survives
(`lastError` / the `attempt === 3` branch).  Also returns the number of
attempts run. -/
def retryFrom (f : Nat → Except AttemptErr JVal) :
    Nat → Nat → Except AttemptErr JVal × Nat
  | _, 0 => (.error .invalidFormat, 0)
  | k, 1 => (f k, 1)
  | k, n + 2 =>
    match f k with
    | .ok v => (.ok v, 1)
    | .error _ =>
      let r := retryFrom f (k + 1) (n + 1)
      (r.1, r.2 + 1)

/-- Observable outcome of one `loadOrGenerateChallenge` call: the challenge
passed to `setChallenge` (if any), the error reported through `setGenError`
("Failed after 3 attempts: <msg>..."), the `saveChallenge` writes performed,
and the number of `callGemini` invocations. -/
structure GenOutcome where
  challenge : Option ShownChallenge
  genError : Option AttemptErr
  writes : List (CacheKey × ShownChallenge)
  calls : Nat

/-- Line 386: `\x7b ...parsed, category: cat.label, cat, diff, day, dateKey \x7d`
(`cat` is necessarily defined here: an undefined `cat` throws before the
parse can succeed). -/
def assembleFull (parsed : JVal) (m : DayMeta) (k : CacheKey) : ShownChallenge :=
  { base := parsed, category := m.cat.map (fun c => c.label), cat := m.cat
  , diff := m.diff, day := m.day, dateKey := some k }

/-- Lines 352–402, `loadOrGenerateChallenge`, with the cached record for the
computed key (already `JSON.parse`d by `loadChallenge`, lines 224–229) and
the completion call as parameters. -/
def loadOrGenerateChallenge (now offsetDays : Int) (cache : Option JVal)
    (gemini : Nat → Except (List Char) (List Char)) : GenOutcome :=
  let m := getTodayMeta now offsetDays
  let dk := computeDateKey now offsetDays
  match cache with
  | some cached =>
    { challenge := some { base := cached, category := none, cat := m.cat
                        , diff := m.diff, day := m.day, dateKey := none }
    , genError := none, writes := [], calls := 0 }
  | none =>
    match retryFrom (attemptResult now offsetDays gemini) 1 3 with
    | (.ok parsed, used) =>
      let full := assembleFull parsed m dk
      { challenge := some full, genError := none
      , writes := [(dk, full)], calls := used }
    | (.error e, used) =>
      { challenge := none, genError := some e, writes := []
      , calls := if m.cat.isSome then used else 0 }

/-!
### Progress ledger (App.jsx lines 243–275, 466–474)
-/

/-- The streak pair in storage: `od_streak` and `od_streak_date`
(`none` is the empty/absent date string). -/
structure StreakState where
  count : Int
  last : Option Int
deriving DecidableEq, Repr

/-- Lines 252–262, `bumpStreak`: `yesterday` is computed as the date of
`Date.now() - 86400000`. -/
def bumpStreak (now : Int) (s : StreakState) : StreakState :=
  let today := dayOf now
  let yesterday := dayOf (now - msPerDay)
  let newCount : Int :=
    if s.last = some yesterday then s.count + 1
    else if s.last = some today then s.count else 1
  { count := newCount, last := some today }

/-- One history record (lines 468–472): `date` is the completion date,
`title`/`category` are the JS property reads off the challenge object,
`analysis` is pre-truncated by the caller. -/
structure HistEntry where
  date : Int
  day : Int
  title : JVal
  category : JVal
  difficulty : Option String
  analysis : List Char

/-- Property reads on the spread challenge object (override, else base). -/
def chTitle (ch : ShownChallenge) : JVal := jsGet ch.base titleKey

def chCategory (ch : ShownChallenge) : JVal :=
  match ch.category with
  | some s => .str s.data
  | none => jsGet ch.base "category".data

/-- Lines 468–472: the entry pushed after a successful thread generation,
with `analysis.slice(0, 120)`. -/
def mkHistEntry (now : Int) (ch : ShownChallenge) (analysis : List Char) :
    HistEntry :=
  { date := dayOf now, day := ch.day, title := chTitle ch
  , category := chCategory ch, difficulty := ch.diff
  , analysis := analysis.take 120 }

/-- Lines 268–275, `pushHistory`: drop entries sharing the new entry's date,
prepend, keep the first 60. -/
def pushHistory (entry : HistEntry) (hist : List HistEntry) : List HistEntry :=
  (entry :: hist.filter (fun h => h.date ≠ entry.date)).take 60

/-- Sequential completions folded through `pushHistory` from the front. -/
def pushAll (es : List HistEntry) : List HistEntry :=
  es.foldl (fun h e => pushHistory e h) []

/-!
### Supporting lemmas
-/

theorem jsIndex_isSome_of {α : Type} (l : List α) (i : Int) (h0 : 0 ≤ i)
    (h1 : i.toNat < l.length) : (jsIndex l i).isSome = true := by
  unfold jsIndex
  rw [if_pos h0, List.getElem?_eq_getElem h1]
  rfl

theorem jsIndex_neg {α : Type} (l : List α) (i : Int) (h : i < 0) :
    jsIndex l i = none := by
  unfold jsIndex
  rw [if_neg (by omega)]

theorem dayOf_sub_day (t : Int) : dayOf (t - msPerDay) = dayOf t - 1 := by
  unfold dayOf msPerDay
  rw [Int.fdiv_eq_ediv _ (by norm_num), Int.fdiv_eq_ediv _ (by norm_num)]
  omega

/-!
### Claim theorems
-/

/-- C6: `getTodayMeta` computes `dayIndex = floor((now - epoch)/oneDay) +
offsetDays + 1` from the fixed 2025-01-01 epoch, picks
`categories[dayIndex % 7]` and `difficulties[floor(dayIndex / 7) % 3]`
(JS remainder), and is deterministic: two calls with the same offset on the
same simulated day return identical triples. -/
theorem dayAssignmentFormula :
    (∀ now offsetDays : Int,
      (getTodayMeta now offsetDays).day =
        Int.fdiv (now - epochMs) msPerDay + offsetDays + 1 ∧
      (getTodayMeta now offsetDays).cat =
        jsIndex CATEGORIES (Int.tmod ((getTodayMeta now offsetDays).day) 7) ∧
      (getTodayMeta now offsetDays).diff =
        jsIndex DIFFICULTIES
          (Int.tmod (Int.fdiv ((getTodayMeta now offsetDays).day) 7) 3)) ∧
    (∀ n1 n2 offsetDays : Int,
      Int.fdiv (n1 - epochMs) msPerDay = Int.fdiv (n2 - epochMs) msPerDay →
      getTodayMeta n1 offsetDays = getTodayMeta n2 offsetDays) := by
  constructor
  · intro now offsetDays
    refine ⟨?_, rfl, rfl⟩
    show getDayNumber now + offsetDays = _
    unfold getDayNumber
    omega
  · intro n1 n2 offsetDays h
    simp only [getTodayMeta, getDayNumber, h]

/-- C6 witness: two clock readings within the same simulated day yield the
same triple. -/
theorem dayAssignmentFormulaWitness :
    getTodayMeta epochMs 5 = getTodayMeta (epochMs + 1000) 5 :=
  dayAssignmentFormula.2 epochMs (epochMs + 1000) 5 (by decide)

/-- C9 (amended): `getTodayMeta` is total — it never throws for any integer
offset — and both labels are defined whenever `dayIndex ≥ 0`; but when the
JS remainder `dayIndex % 7` (resp. `floor(dayIndex / 7) % 3`) is negative
the category (resp. difficulty) component is `undefined`, not a label. -/
theorem dayAssignmentTotality (now offsetDays : Int) :
    (0 ≤ (getTodayMeta now offsetDays).day →
      ((getTodayMeta now offsetDays).cat).isSome = true ∧
      ((getTodayMeta now offsetDays).diff).isSome = true) ∧
    (Int.tmod ((getTodayMeta now offsetDays).day) 7 < 0 →
      (getTodayMeta now offsetDays).cat = none) ∧
    (Int.tmod (Int.fdiv ((getTodayMeta now offsetDays).day) 7) 3 < 0 →
      (getTodayMeta now offsetDays).diff = none) := by
  have hcat : (getTodayMeta now offsetDays).cat =
      jsIndex CATEGORIES (Int.tmod ((getTodayMeta now offsetDays).day) 7) := rfl
  have hdiff : (getTodayMeta now offsetDays).diff =
      jsIndex DIFFICULTIES
        (Int.tmod (Int.fdiv ((getTodayMeta now offsetDays).day) 7) 3) := rfl
  have hlenC : CATEGORIES.length = 7 := rfl
  have hlenD : DIFFICULTIES.length = 3 := rfl
  refine ⟨?_, ?_, ?_⟩
  · intro hd
    constructor
    · rw [hcat]
      apply jsIndex_isSome_of
      · exact Int.tmod_nonneg 7 hd
      · have h1 : Int.tmod ((getTodayMeta now offsetDays).day) 7 < 7 :=
          Int.tmod_lt_of_pos _ (by norm_num)
        have h2 : (0:Int) ≤ Int.tmod ((getTodayMeta now offsetDays).day) 7 :=
          Int.tmod_nonneg 7 hd
        rw [hlenC]
        omega
    · rw [hdiff]
      apply jsIndex_isSome_of
      · exact Int.tmod_nonneg 3 (Int.fdiv_nonneg hd (by norm_num))
      · have h1 : Int.tmod (Int.fdiv ((getTodayMeta now offsetDays).day) 7) 3 < 3 :=
          Int.tmod_lt_of_pos _ (by norm_num)
        have h2 : (0:Int) ≤ Int.tmod (Int.fdiv ((getTodayMeta now offsetDays).day) 7) 3 :=
          Int.tmod_nonneg 3 (Int.fdiv_nonneg hd (by norm_num))
        rw [hlenD]
        omega
  · intro h
    rw [hcat]
    exact jsIndex_neg _ _ h
  · intro h
    rw [hdiff]
    exact jsIndex_neg _ _ h

/-- C9 counterexample: at day index −1 (clock at the epoch, offset −2) the
returned triple's category and difficulty are `undefined` — refuting that a
well-defined (category, difficulty) pair is returned for every integer
offset. -/
theorem dayAssignmentNegativeCounterexample :
    (getTodayMeta epochMs (-2)).day = -1 ∧
    (getTodayMeta epochMs (-2)).cat = none ∧
    (getTodayMeta epochMs (-2)).diff = none := by
  refine ⟨by decide, by decide, by decide⟩

/-- C9 witness: at a nonnegative day index both labels are defined. -/
theorem dayAssignmentTotalityWitness :
    ((getTodayMeta epochMs 0).cat).isSome = true ∧
    ((getTodayMeta epochMs 0).diff).isSome = true :=
  (dayAssignmentTotality epochMs 0).1 (by decide)

/-- C4: `bumpStreak` increments the streak when the stored date is the
calendar day immediately preceding today, keeps it unchanged when the stored
date is today, resets it to 1 otherwise, and always stores today. -/
theorem streakUpdateRule (now : Int) (s : StreakState) :
    (bumpStreak now s).last = some (dayOf now) ∧
    (s.last = some (dayOf now - 1) → (bumpStreak now s).count = s.count + 1) ∧
    (s.last = some (dayOf now) → (bumpStreak now s).count = s.count) ∧
    (s.last ≠ some (dayOf now - 1) → s.last ≠ some (dayOf now) →
      (bumpStreak now s).count = 1) := by
  have hy : dayOf (now - msPerDay) = dayOf now - 1 := dayOf_sub_day now
  refine ⟨rfl, ?_, ?_, ?_⟩
  · intro h
    simp only [bumpStreak, hy, h, if_pos]
  · intro h
    have hne : some (dayOf now) ≠ some (dayOf now - 1) := by
      intro hc
      have := Option.some.inj hc
      omega
    simp only [bumpStreak, hy, h]
    simp
    omega
  · intro h1 h2
    simp only [bumpStreak, hy]
    rw [if_neg h1, if_neg h2]

/-- C4 witness: on day 5 with a completion recorded on day 4, the streak
increments and the stored date becomes day 5. -/
theorem streakUpdateRuleWitness :
    (bumpStreak (86400000 * 5) ⟨3, some 4⟩).count = 3 + 1 ∧
    (bumpStreak (86400000 * 5) ⟨3, some 4⟩).last = some 5 := by
  constructor
  · exact (streakUpdateRule (86400000 * 5) ⟨3, some 4⟩).2.1 (by decide)
  · have h := (streakUpdateRule (86400000 * 5) ⟨3, some 4⟩).1
    rw [h]
    decide

/-- C7: on a cache hit, `loadOrGenerateChallenge` performs no completion
call and no cache write, and shows the stored record spread-merged with the
freshly recomputed `cat`/`diff`/`day` assignment metadata. -/
theorem cacheHitShortCircuit (now offsetDays : Int) (cached : JVal)
    (gemini : Nat → Except (List Char) (List Char)) :
    loadOrGenerateChallenge now offsetDays (some cached) gemini =
      { challenge := some { base := cached, category := none
                          , cat := (getTodayMeta now offsetDays).cat
                          , diff := (getTodayMeta now offsetDays).diff
                          , day := (getTodayMeta now offsetDays).day
                          , dateKey := none }
      , genError := none, writes := [], calls := 0 } := rfl

/-- C10: an empty completion (what `callGemini` returns when the service
response has no candidates) fails every recovery tier, so it can never
produce a challenge record. -/
theorem emptyCompletionNeverChallenge :
    extractCandidateText none = [] ∧
    tier1 [] = none ∧ tier2 [] = none ∧ tier3 [] = none ∧
    parseGeminiJSON [] = Except.error [] ∧
    (∀ (now offsetDays : Int) (gemini : Nat → Except (List Char) (List Char))
       (k : Nat) (v : JVal), gemini k = .ok [] →
       attemptResult now offsetDays gemini k ≠ .ok v) := by
  refine ⟨rfl, rfl, rfl, rfl, rfl, ?_⟩
  intro now offsetDays gemini k v hg
  unfold attemptResult
  cases hcat : (getTodayMeta now offsetDays).cat with
  | none => simp
  | some c =>
    rw [hg]
    have hp : parseGeminiJSON [] = Except.error [] := rfl
    simp [hp]

/-- C10 witness: a concrete oracle returning the empty completion cannot
yield a successful attempt. -/
theorem emptyCompletionNeverChallengeWitness :
    attemptResult epochMs 0 (fun _ => .ok []) 1 ≠ .ok (.obj []) :=
  emptyCompletionNeverChallenge.2.2.2.2.2 epochMs 0 (fun _ => .ok []) 1
    (.obj []) rfl

theorem jsTrim_braced (mid : List Char) :
    jsTrim (lbrace :: (mid ++ [rbrace])) = lbrace :: (mid ++ [rbrace]) := by
  have hl : isJsWs lbrace = false := rfl
  have hr : isJsWs rbrace = false := rfl
  unfold jsTrim
  rw [List.dropWhile_cons, hl]
  simp only [Bool.false_eq_true, if_false, List.reverse_cons, List.reverse_append,
    List.reverse_cons, List.reverse_nil, List.nil_append, List.cons_append,
    List.dropWhile_cons, hr, List.append_assoc]
  simp

theorem braceSpan_braced (mid : List Char) :
    braceSpan (lbrace :: (mid ++ [rbrace])) = some (lbrace :: (mid ++ [rbrace])) := by
  rw [braceSpan]
  rw [if_pos ⟨rfl, by simp⟩]
  unfold endAtLastClose
  have h : (lbrace :: (mid ++ [rbrace])).reverse =
      rbrace :: (mid.reverse ++ [lbrace]) := by simp
  rw [h, List.dropWhile_cons]
  simp

/-- C8: on a completion that is exactly a brace-delimited JSON document with
no fence markers and no surrounding prose, tier 1 succeeds and the pipeline
returns precisely what direct `JSON.parse` returns. -/
theorem tier1CleanDocumentExact (raw mid : List Char) (v : JVal)
    (hFence : stripFences raw = raw)
    (hShape : raw = lbrace :: (mid ++ [rbrace]))
    (hParse : jsonParse raw = some v) :
    tier1 raw = some v ∧ parseGeminiJSON raw = Except.ok v := by
  have hTrim : jsTrim raw = raw := by rw [hShape]; exact jsTrim_braced mid
  have hBrace : braceSpan raw = some raw := by
    rw [hShape]; exact braceSpan_braced mid
  have hClean : cleaned1 raw = raw := by
    unfold cleaned1
    rw [hFence, hTrim]
    simp only [hBrace]
  have hT1 : tier1 raw = some v := by
    unfold tier1
    rw [hClean, hParse]
  refine ⟨hT1, ?_⟩
  unfold parseGeminiJSON
  rw [hT1]

/-- C8 witness: a concrete clean JSON object document. -/
theorem tier1CleanDocumentExactWitness :
    tier1 ("\x7b\"a\":1\x7d".data) = some (.obj [("a".data, .num 1 0)]) ∧
    parseGeminiJSON ("\x7b\"a\":1\x7d".data) =
      Except.ok (.obj [("a".data, .num 1 0)]) :=
  tier1CleanDocumentExact ("\x7b\"a\":1\x7d".data) ("\"a\":1".data)
    (.obj [("a".data, .num 1 0)]) rfl rfl rfl

theorem take_append_take {α : Type} (a b : List α) (n : Nat) :
    (a ++ b.take n).take n = (a ++ b).take n := by
  rw [List.take_append_eq_append_take, List.take_append_eq_append_take,
    List.take_take]
  congr 1
  congr 1
  omega

theorem pushHistory_foldl (es : List HistEntry) :
    ∀ hist : List HistEntry,
      ((es.map (fun e => e.date)) ++ hist.map (fun e => e.date)).Nodup →
      hist.length ≤ 60 →
      es.foldl (fun h e => pushHistory e h) hist = (es.reverse ++ hist).take 60 := by
  induction es with
  | nil =>
    intro hist _ hlen
    simp [List.take_of_length_le hlen]
  | cons e es' ih =>
    intro hist hnd hlen
    have hnd' : (e.date :: ((es'.map (fun x => x.date)) ++
        hist.map (fun x => x.date))).Nodup := by
      simpa using hnd
    have hmemE : e.date ∉ hist.map (fun x => x.date) := by
      have := (List.nodup_cons.mp hnd').1
      intro hc
      exact this (List.mem_append_right _ hc)
    have hfilter : hist.filter (fun x => x.date ≠ e.date) = hist := by
      rw [List.filter_eq_self]
      intro x hx
      have hxd : x.date ∈ hist.map (fun y => y.date) := List.mem_map_of_mem _ hx
      have : x.date ≠ e.date := by
        intro hc
        exact hmemE (hc ▸ hxd)
      exact decide_eq_true this
    have hpush : pushHistory e hist = (e :: hist).take 60 := by
      unfold pushHistory
      rw [hfilter]
    have hlen' : ((e :: hist).take 60).length ≤ 60 := by
      rw [List.length_take]
      omega
    have hsub : List.Sublist (((e :: hist).take 60).map (fun x => x.date))
        (e.date :: hist.map (fun x => x.date)) := by
      have h1 : List.Sublist ((e :: hist).take 60) (e :: hist) :=
        List.take_sublist _ _
      have h2 := h1.map (fun x => x.date)
      simpa using h2
    have hndmid : ((es'.map (fun x => x.date)) ++
        (e.date :: hist.map (fun x => x.date))).Nodup :=
      List.Perm.nodup (List.perm_middle).symm hnd'
    have hnd'' : ((es'.map (fun x => x.date)) ++
        ((e :: hist).take 60).map (fun x => x.date)).Nodup :=
      List.Nodup.sublist (hsub.append_left _) hndmid
    calc (e :: es').foldl (fun h x => pushHistory x h) hist
        = es'.foldl (fun h x => pushHistory x h) ((e :: hist).take 60) := by
          rw [List.foldl_cons, hpush]
      _ = (es'.reverse ++ (e :: hist).take 60).take 60 := ih _ hnd'' hlen'
      _ = (es'.reverse ++ (e :: hist)).take 60 := take_append_take _ _ _
      _ = ((e :: es').reverse ++ hist).take 60 := by
          simp [List.reverse_cons, List.append_assoc]

/-- C5: the history update truncates the analysis to 120 characters,
prepends the entry, deduplicates by date, and caps the log at the 60 most
recent entries: any run of distinct-date completions leaves exactly the
most recent ≤ 60 entries most-recent-first (after 61 completions, exactly
60), and re-completing a present date replaces its entry at the front
rather than duplicating it. -/
theorem historyUpdatePolicy :
    (∀ (now : Int) (ch : ShownChallenge) (a : List Char),
      (mkHistEntry now ch a).analysis = a.take 120) ∧
    (∀ (e : HistEntry) (hist : List HistEntry),
      (pushHistory e hist).length ≤ 60 ∧
      (pushHistory e hist).head? = some e ∧
      (pushHistory e hist).filter (fun x => x.date = e.date) = [e]) ∧
    (∀ es : List HistEntry, (es.map (fun x => x.date)).Nodup →
      pushAll es = es.reverse.take 60) ∧
    (∀ es : List HistEntry, (es.map (fun x => x.date)).Nodup →
      es.length = 61 → (pushAll es).length = 60) := by
  have hmain : ∀ es : List HistEntry, (es.map (fun x => x.date)).Nodup →
      pushAll es = es.reverse.take 60 := by
    intro es h
    unfold pushAll
    have := pushHistory_foldl es [] (by simpa using h) (by simp)
    simpa using this
  refine ⟨fun _ _ _ => rfl, ?_, hmain, ?_⟩
  · intro e hist
    refine ⟨?_, ?_, ?_⟩
    · unfold pushHistory
      rw [List.length_take]
      omega
    · unfold pushHistory
      rw [List.head?_take]
      simp
    · unfold pushHistory
      have h60 : (60 : Nat) = 59 + 1 := rfl
      rw [h60, List.take_succ_cons]
      rw [List.filter_cons]
      have hnil : List.filter (fun x => x.date = e.date)
          ((hist.filter (fun h => h.date ≠ e.date)).take 59) = [] := by
        rw [List.filter_eq_nil_iff]
        intro x hx
        have hx' : x ∈ hist.filter (fun h => h.date ≠ e.date) :=
          List.take_subset _ _ hx
        have hne := (List.mem_filter.mp hx').2
        simp only [decide_eq_true_eq] at hne ⊢
        exact hne
      simp [hnil]
      intro a ha
      have ha' : a ∈ hist.filter (fun h => !decide (h.date = e.date)) :=
        List.take_subset _ _ ha
      have hb := (List.mem_filter.mp ha').2
      simpa using hb
  · intro es h h61
    rw [hmain es h]
    rw [List.length_take, List.length_reverse, h61]
    omega

/-- 61 completion entries on consecutive distinct dates. -/
def sampleCompletions : List HistEntry :=
  (List.range 61).map
    (fun i => { date := (i : Int), day := 0, title := JVal.undefined
              , category := JVal.undefined, difficulty := none, analysis := [] })

/-- C5 witness: 61 sequential distinct-date completions leave exactly the
60 most recent entries, most-recent-first. -/
theorem historyUpdatePolicyWitness :
    pushAll sampleCompletions = sampleCompletions.reverse.take 60 ∧
    (pushAll sampleCompletions).length = 60 :=
  ⟨historyUpdatePolicy.2.2.1 sampleCompletions (by decide),
   historyUpdatePolicy.2.2.2 sampleCompletions (by decide) (by decide)⟩

theorem attemptResult_ok_validated (now offsetDays : Int)
    (gemini : Nat → Except (List Char) (List Char)) (k : Nat) (v : JVal)
    (h : attemptResult now offsetDays gemini k = .ok v) :
    missingFields v = false := by
  cases hcat : (getTodayMeta now offsetDays).cat with
  | none =>
    simp only [attemptResult, hcat] at h
    exact Except.noConfusion h
  | some c =>
    cases hg : gemini k with
    | error msg =>
      simp only [attemptResult, hcat, hg] at h
      exact Except.noConfusion h
    | ok raw =>
      cases hp : parseGeminiJSON raw with
      | error t =>
        simp only [attemptResult, hcat, hg, hp] at h
        exact Except.noConfusion h
      | ok parsed =>
        simp only [attemptResult, hcat, hg, hp] at h
        by_cases hm : missingFields parsed = true
        · rw [if_pos hm] at h
          exact Except.noConfusion h
        · rw [if_neg hm] at h
          cases h
          simpa using hm

theorem retryFrom13 (f : Nat → Except AttemptErr JVal) :
    (∀ v, f 1 = .ok v → retryFrom f 1 3 = (.ok v, 1)) ∧
    (∀ e1 v, f 1 = .error e1 → f 2 = .ok v → retryFrom f 1 3 = (.ok v, 2)) ∧
    (∀ e1 e2, f 1 = .error e1 → f 2 = .error e2 →
      retryFrom f 1 3 = (f 3, 3)) := by
  refine ⟨?_, ?_, ?_⟩
  · intro v h
    show retryFrom f 1 (1 + 2) = _
    rw [retryFrom, h]
  · intro e1 v h1 h2
    show retryFrom f 1 (1 + 2) = _
    rw [retryFrom, h1]
    show (_, (retryFrom f 2 (0 + 2)).2 + 1) = _
    rw [retryFrom, h2]
  · intro e1 e2 h1 h2
    show retryFrom f 1 (1 + 2) = _
    rw [retryFrom, h1]
    show (_, (retryFrom f 2 (0 + 2)).2 + 1) = _
    rw [retryFrom, h2]
    show ((retryFrom f 3 1).1, (retryFrom f 3 1).2 + 1 + 1) = _
    rw [retryFrom]

theorem retryFrom13_used_le (f : Nat → Except AttemptErr JVal) :
    (retryFrom f 1 3).2 ≤ 3 := by
  cases h1 : f 1 with
  | ok v =>
    have h := (retryFrom13 f).1 v h1
    simp [h]
  | error e1 =>
    cases h2 : f 2 with
    | ok v =>
      have h := (retryFrom13 f).2.1 e1 v h1 h2
      simp [h]
    | error e2 =>
      have h := (retryFrom13 f).2.2 e1 e2 h1 h2
      simp [h]

theorem loadMiss_eq (now offsetDays : Int)
    (gemini : Nat → Except (List Char) (List Char)) :
    loadOrGenerateChallenge now offsetDays none gemini =
      match retryFrom (attemptResult now offsetDays gemini) 1 3 with
      | (.ok parsed, used) =>
        { challenge := some (assembleFull parsed (getTodayMeta now offsetDays)
            (computeDateKey now offsetDays))
        , genError := none
        , writes := [(computeDateKey now offsetDays,
            assembleFull parsed (getTodayMeta now offsetDays)
              (computeDateKey now offsetDays))]
        , calls := used }
      | (.error e, used) =>
        { challenge := none, genError := some e, writes := []
        , calls := if (getTodayMeta now offsetDays).cat.isSome then used
                   else 0 } := rfl

/-- C1: on a cache miss, `loadOrGenerateChallenge` makes at most 3
generate-and-parse attempts; the first attempt that passes validation ends
the loop with exactly one cache write of the assembled (validated) record;
if all 3 attempts fail it reports "Failed after 3 attempts" wrapping the
third attempt's error, with zero cache writes and no record shown. -/
theorem obtainRetryPolicy (now offsetDays : Int)
    (gemini : Nat → Except (List Char) (List Char)) :
    ((loadOrGenerateChallenge now offsetDays none gemini).calls ≤ 3) ∧
    (∀ v, attemptResult now offsetDays gemini 1 = .ok v →
      loadOrGenerateChallenge now offsetDays none gemini =
        { challenge := some (assembleFull v (getTodayMeta now offsetDays)
            (computeDateKey now offsetDays))
        , genError := none
        , writes := [(computeDateKey now offsetDays,
            assembleFull v (getTodayMeta now offsetDays)
              (computeDateKey now offsetDays))]
        , calls := 1 } ∧ missingFields v = false) ∧
    (∀ e1 v, attemptResult now offsetDays gemini 1 = .error e1 →
      attemptResult now offsetDays gemini 2 = .ok v →
      loadOrGenerateChallenge now offsetDays none gemini =
        { challenge := some (assembleFull v (getTodayMeta now offsetDays)
            (computeDateKey now offsetDays))
        , genError := none
        , writes := [(computeDateKey now offsetDays,
            assembleFull v (getTodayMeta now offsetDays)
              (computeDateKey now offsetDays))]
        , calls := 2 } ∧ missingFields v = false) ∧
    (∀ e1 e2 v, attemptResult now offsetDays gemini 1 = .error e1 →
      attemptResult now offsetDays gemini 2 = .error e2 →
      attemptResult now offsetDays gemini 3 = .ok v →
      loadOrGenerateChallenge now offsetDays none gemini =
        { challenge := some (assembleFull v (getTodayMeta now offsetDays)
            (computeDateKey now offsetDays))
        , genError := none
        , writes := [(computeDateKey now offsetDays,
            assembleFull v (getTodayMeta now offsetDays)
              (computeDateKey now offsetDays))]
        , calls := 3 } ∧ missingFields v = false) ∧
    (∀ e1 e2 e3, attemptResult now offsetDays gemini 1 = .error e1 →
      attemptResult now offsetDays gemini 2 = .error e2 →
      attemptResult now offsetDays gemini 3 = .error e3 →
      (loadOrGenerateChallenge now offsetDays none gemini).challenge = none ∧
      (loadOrGenerateChallenge now offsetDays none gemini).genError = some e3 ∧
      (loadOrGenerateChallenge now offsetDays none gemini).writes = []) := by
  refine ⟨?_, ?_, ?_, ?_, ?_⟩
  · have hle := retryFrom13_used_le (attemptResult now offsetDays gemini)
    rw [loadMiss_eq]
    rcases hr : retryFrom (attemptResult now offsetDays gemini) 1 3 with ⟨res, used⟩
    rw [hr] at hle
    simp only at hle
    cases res with
    | ok parsed => simpa using hle
    | error e =>
      simp only
      split
      · exact hle
      · omega
  · intro v h1
    rw [loadMiss_eq, (retryFrom13 (attemptResult now offsetDays gemini)).1 v h1]
    exact ⟨rfl, attemptResult_ok_validated now offsetDays gemini 1 v h1⟩
  · intro e1 v h1 h2
    rw [loadMiss_eq,
      (retryFrom13 (attemptResult now offsetDays gemini)).2.1 e1 v h1 h2]
    exact ⟨rfl, attemptResult_ok_validated now offsetDays gemini 2 v h2⟩
  · intro e1 e2 v h1 h2 h3
    rw [loadMiss_eq,
      (retryFrom13 (attemptResult now offsetDays gemini)).2.2 e1 e2 h1 h2, h3]
    exact ⟨rfl, attemptResult_ok_validated now offsetDays gemini 3 v h3⟩
  · intro e1 e2 e3 h1 h2 h3
    rw [loadMiss_eq,
      (retryFrom13 (attemptResult now offsetDays gemini)).2.2 e1 e2 h1 h2, h3]
    exact ⟨rfl, rfl, rfl⟩

/-- A completion whose text is the expected six-field JSON document. -/
def goodRaw : List Char :=
  "\x7b\"title\":\"T\",\"problem\":\"P\",\"hints\":[\"h\"],\"keyMetrics\":[\"m\"],\"tools\":[\"t\"],\"teachingPoint\":\"K\"\x7d".data

def goodVal : JVal :=
  .obj [(titleKey, .str ['T']), (problemKey, .str ['P'])
      , (hintsKey, .arr [.str ['h']]), (keyMetricsKey, .arr [.str ['m']])
      , (toolsKey, .arr [.str ['t']]), (teachingKey, .str ['K'])]

/-- A completion service that fails twice, then succeeds on attempt 3. -/
def flakyOracle : Nat → Except (List Char) (List Char) :=
  fun k => if k = 3 then .ok goodRaw else .error ("service error 500".data)

/-- C1 witness: two failures then a success end with the record cached
once, three calls made, and no surfaced error. -/
theorem obtainRetryPolicyWitness :
    (loadOrGenerateChallenge epochMs 0 none flakyOracle).writes.length = 1 ∧
    (loadOrGenerateChallenge epochMs 0 none flakyOracle).calls = 3 ∧
    (loadOrGenerateChallenge epochMs 0 none flakyOracle).genError = none := by
  have h := (obtainRetryPolicy epochMs 0 flakyOracle).2.2.2.1
    (.service ("service error 500".data)) (.service ("service error 500".data))
    goodVal rfl rfl rfl
  rw [h.1]
  exact ⟨rfl, rfl, rfl⟩

/-- C2 (amended): once tiers 1 and 2 have failed, recovery succeeds exactly
when all six per-field regex extractions succeed AND each of the three
bracketed array captures itself parses as JSON; otherwise the thrown error
wraps the tier-1 parser's original failure. -/
theorem tier3Characterization (raw : List Char)
    (h1 : tier1 raw = none) (h2 : tier2 raw = none) :
    parseGeminiJSON raw =
      (match tier3 raw with
       | some v => Except.ok v
       | none => Except.error (cleaned1 raw)) ∧
    ((tier3 raw).isSome = true ↔
      ((scanField titleKey (cleaned2 raw)).isSome = true ∧
       (scanField problemKey (cleaned2 raw)).isSome = true ∧
       (scanField teachingKey (cleaned2 raw)).isSome = true ∧
       (((scanArr hintsKey (cleaned2 raw)).bind
          (fun h => jsonParse ('[' :: (h ++ [']'])))).isSome = true) ∧
       (((scanArr keyMetricsKey (cleaned2 raw)).bind
          (fun m => jsonParse ('[' :: (m ++ [']'])))).isSome = true) ∧
       (((scanArr toolsKey (cleaned2 raw)).bind
          (fun tl => jsonParse ('[' :: (tl ++ [']'])))).isSome = true))) := by
  constructor
  · unfold parseGeminiJSON
    rw [h1, h2]
  · unfold tier3
    cases hT : scanField titleKey (cleaned2 raw) with
    | none => simp [hT]
    | some t =>
      cases hP : scanField problemKey (cleaned2 raw) with
      | none => simp [hP]
      | some p =>
        cases hH : scanArr hintsKey (cleaned2 raw) with
        | none => simp [hH]
        | some h =>
          cases hM : scanArr keyMetricsKey (cleaned2 raw) with
          | none => simp [hM]
          | some m =>
            cases hTl : scanArr toolsKey (cleaned2 raw) with
            | none => simp [hTl]
            | some tl =>
              cases hTe : scanField teachingKey (cleaned2 raw) with
              | none => simp [hTe]
              | some tp =>
                simp only [hT, hP, hH, hM, hTl, hTe, Option.bind_some,
                  Option.isSome_some, true_and]
                cases hJ1 : jsonParse ('[' :: (h ++ [']'])) with
                | none => simp [hJ1]
                | some hv =>
                  cases hJ2 : jsonParse ('[' :: (m ++ [']'])) with
                  | none => simp [hJ2]
                  | some mv =>
                    cases hJ3 : jsonParse ('[' :: (tl ++ [']'])) with
                    | none => simp [hJ3]
                    | some tv => simp [hJ1, hJ2, hJ3]

/-- Completion text with all six fields extractable but no JSON braces:
tiers 1 and 2 fail, tier 3 assembles the record. -/
def sixFieldsFlat : List Char :=
  "\"title\": \"T\", \"problem\": \"P\", \"hints\": [\"h\"], \"keyMetrics\": [\"m\"], \"tools\": [\"t\"], \"teachingPoint\": \"K\"".data

/-- Like `sixFieldsFlat`, but the `hints` list body `x` is not valid JSON:
every per-field regex still succeeds, yet recovery fails. -/
def sixFieldsBadHints : List Char :=
  "\"title\": \"T\", \"problem\": \"P\", \"hints\": [x], \"keyMetrics\": [\"m\"], \"tools\": [\"t\"], \"teachingPoint\": \"K\"".data

/-- C2 counterexample: on `sixFieldsBadHints`, tiers 1 and 2 fail and all
six per-field regex extractions succeed, yet `parseGeminiJSON` still throws
(the bracketed `hints` capture does not parse) — refuting "tier 3 succeeds
exactly when all six per-field regex extractions succeed". -/
theorem tier3AllSixYetFails :
    tier1 sixFieldsBadHints = none ∧ tier2 sixFieldsBadHints = none ∧
    (scanField titleKey (cleaned2 sixFieldsBadHints)).isSome = true ∧
    (scanField problemKey (cleaned2 sixFieldsBadHints)).isSome = true ∧
    (scanArr hintsKey (cleaned2 sixFieldsBadHints)).isSome = true ∧
    (scanArr keyMetricsKey (cleaned2 sixFieldsBadHints)).isSome = true ∧
    (scanArr toolsKey (cleaned2 sixFieldsBadHints)).isSome = true ∧
    (scanField teachingKey (cleaned2 sixFieldsBadHints)).isSome = true ∧
    parseGeminiJSON sixFieldsBadHints =
      Except.error (cleaned1 sixFieldsBadHints) :=
  ⟨rfl, rfl, rfl, rfl, rfl, rfl, rfl, rfl, rfl⟩

/-- C2 witness: on `sixFieldsFlat` tiers 1 and 2 fail and tier 3 succeeds,
with the pipeline following the characterization. -/
theorem tier3CharacterizationWitness :
    parseGeminiJSON sixFieldsFlat =
      (match tier3 sixFieldsFlat with
       | some v => Except.ok v
       | none => Except.error (cleaned1 sixFieldsFlat)) ∧
    (tier3 sixFieldsFlat).isSome = true :=
  ⟨(tier3Characterization sixFieldsFlat rfl rfl).1,
   (tier3Characterization sixFieldsFlat rfl rfl).2.mpr
     ⟨rfl, rfl, rfl, rfl, rfl, rfl⟩⟩

/-- A well-formed completion whose `title` is the number 5 — truthy, but
not a string. -/
def numericTitleRaw : List Char :=
  "\x7b\"title\":5,\"problem\":\"P\",\"hints\":[\"h\"],\"keyMetrics\":[\"m\"],\"tools\":[\"t\"],\"teachingPoint\":\"K\"\x7d".data

def numericTitleVal : JVal :=
  .obj [(titleKey, .num 5 0), (problemKey, .str ['P'])
      , (hintsKey, .arr [.str ['h']]), (keyMetricsKey, .arr [.str ['m']])
      , (toolsKey, .arr [.str ['t']]), (teachingKey, .str ['K'])]

/-- C3 counterexample: a record whose `title` is the number 5 parses, passes
the post-tier validation, and is accepted by a generation attempt — so the
check does **not** enforce the claimed shapes (scalar strings / string
sequences); it only tests truthiness. -/
theorem validationShapeCounterexample :
    parseGeminiJSON numericTitleRaw = Except.ok numericTitleVal ∧
    missingFields numericTitleVal = false ∧
    jsGet numericTitleVal titleKey = .num 5 0 ∧
    attemptResult epochMs 0 (fun _ => .ok numericTitleRaw) 1 =
      .ok numericTitleVal :=
  ⟨rfl, rfl, rfl, rfl⟩

/-- C3 (amended): the post-recovery validation checks exactly that all six
required fields are present and truthy (not their shapes), and any parse
result failing it makes the attempt fail with the
"missing required fields" error. -/
theorem validationTruthinessOnly (v : JVal) :
    (missingFields v = false ↔
      (jsTruthy (jsGet v titleKey) = true ∧
       jsTruthy (jsGet v problemKey) = true ∧
       jsTruthy (jsGet v hintsKey) = true ∧
       jsTruthy (jsGet v keyMetricsKey) = true ∧
       jsTruthy (jsGet v toolsKey) = true ∧
       jsTruthy (jsGet v teachingKey) = true)) ∧
    (∀ (now offsetDays : Int) (gemini : Nat → Except (List Char) (List Char))
       (k : Nat) (raw : List Char) (c : Category),
      (getTodayMeta now offsetDays).cat = some c →
      gemini k = .ok raw →
      parseGeminiJSON raw = .ok v →
      missingFields v = true →
      attemptResult now offsetDays gemini k = .error .invalidFormat) := by
  constructor
  · unfold missingFields
    constructor
    · intro h
      simp only [Bool.or_eq_false_iff, Bool.not_eq_false'] at h
      exact ⟨h.1.1.1.1.1, h.1.1.1.1.2, h.1.1.1.2, h.1.1.2, h.1.2, h.2⟩
    · intro h
      simp only [Bool.or_eq_false_iff, Bool.not_eq_false']
      exact ⟨⟨⟨⟨⟨h.1, h.2.1⟩, h.2.2.1⟩, h.2.2.2.1⟩, h.2.2.2.2.1⟩, h.2.2.2.2.2⟩
  · intro now offsetDays gemini k raw c hcat hg hp hm
    simp [attemptResult, hcat, hg, hp, hm]

/-- A completion missing `teachingPoint`: validation rejects it. -/
def fiveFieldRaw : List Char :=
  "\x7b\"title\":\"T\",\"problem\":\"P\",\"hints\":[\"h\"],\"keyMetrics\":[\"m\"],\"tools\":[\"t\"]\x7d".data

def fiveFieldVal : JVal :=
  .obj [(titleKey, .str ['T']), (problemKey, .str ['P'])
      , (hintsKey, .arr [.str ['h']]), (keyMetricsKey, .arr [.str ['m']])
      , (toolsKey, .arr [.str ['t']])]

/-- C3 witness: a parse missing a required field fails the attempt with the
"missing required fields" error. -/
theorem validationTruthinessOnlyWitness :
    attemptResult epochMs 0 (fun _ => .ok fiveFieldRaw) 1 =
      .error .invalidFormat :=
  (validationTruthinessOnly fiveFieldVal).2 epochMs 0
    (fun _ => .ok fiveFieldRaw) 1 fiveFieldRaw
    ⟨"eth", "ETH Fundamentals", "Ξ", "#627eea"⟩ rfl rfl rfl rfl
